import Mathlib

/-!
Shallow embedding of `scripts/BuildHTMLFromJSONFiles.py` (NVIDIA/NsightSystemsPlugins).

The script reads plugin descriptor JSON files from an input directory, validates each
against a fixed schema (`validate_plugin_json`), collects the valid ones
(`collect_plugins`), renders a static HTML page (`build_html`) and writes it to the
output file (`main`).

Modelling conventions:
* Python values produced by `json.load` are modelled by the inductive `Json`.
  `Json.float` models non-integer JSON numbers; it carries no payload because no
  code path observed by the claims depends on a float's numeric value (floats fail
  every `isinstance(_, int)` / `isinstance(_, str)` test, are hashable, and sort in
  the number class).  `str()` of a float, and Python truthiness of a float, are the
  only places a float's value would matter; both are marked below where they are
  approximated.
* Python `bool` is a subclass of `int` with `True == 1`, which the model reproduces
  (`schemaVersionOkB`, `pyEqB`).
* Uncaught Python exceptions (TypeError from `set(...)` on unhashable items, from
  `sorted(...)` on incomparable items, from `", ".join(...)` on non-strings,
  AttributeError from `.replace` / `.get` on a non-string / non-dict, and from
  `args.input_dir.resolve()` when the flag is absent) are modelled as
  `Except.error ()`.  All modelled exception points occur before any file write.
* A directory is a list of `(file name, parse outcome)` pairs: the file content is
  abstracted to the result of `json.load` on it (`none` = OSError or JSONDecodeError,
  the two exceptions `load_plugin_json` catches).
* Paths are taken as already resolved; `Path.resolve` is the identity in the model.
* stderr messages are modelled as simplified strings (the claims never inspect
  message text, only that messages are emitted).
-/

namespace BuildHTMLFromJSONFiles

/-- Python values that `json.load` can produce. -/
inductive Json where
  | null
  | bool (b : Bool)
  | int (n : Int)
  | float
  | str (s : String)
  | arr (elems : List Json)
  | obj (fields : List (String × Json))
deriving Repr

/-- Dictionary lookup, `data[key]` / `key in data` / `data.get(key)`.  JSON objects
decoded by `json.load` have unique keys, so first-match lookup agrees with `dict`. -/
def lookupKey (kvs : List (String × Json)) (k : String) : Option Json :=
  match kvs with
  | [] => none
  | (k', v) :: rest => if k' = k then some v else lookupKey rest k

/-- `isinstance(v, str)`. -/
def isStrB : Json → Bool
  | .str _ => true
  | _ => false

/-- `isinstance(v, int) and v == 1`; Python `bool` is an `int` subclass and `True == 1`. -/
def schemaVersionOkB : Json → Bool
  | .int n => n == 1
  | .bool b => b
  | _ => false

/-- A value is hashable (member of a Python `set`) unless it is a list or dict. -/
def hashableB : Json → Bool
  | .arr _ => false
  | .obj _ => false
  | _ => true

/-- Comparison class for Python `sorted`: numbers (int/bool/float) are mutually
comparable, strings are mutually comparable, `None` compares with nothing. -/
def sortClass : Json → Nat
  | .int _ => 0
  | .bool _ => 0
  | .float => 0
  | .str _ => 1
  | .null => 2
  | .arr _ => 3
  | .obj _ => 3

/-- Python `==` on hashable JSON scalars: `True == 1`, `False == 0`.  Two floats are
identified (payload-free model); this only affects deduplication inside one sort
class, which no modelled behaviour observes. -/
def pyEqB : Json → Json → Bool
  | .null, .null => true
  | .bool a, .bool b => a == b
  | .bool a, .int n => (if a then (1 : Int) else 0) == n
  | .int n, .bool a => n == (if a then (1 : Int) else 0)
  | .int m, .int n => m == n
  | .float, .float => true
  | .str a, .str b => a == b
  | _, _ => false

/-- Deduplication performed by building a Python `set`, keeping one representative per
`==`-equivalence class (`seen` accumulates the representatives already kept). -/
def pyDedupAux (seen : List Json) : List Json → List Json
  | [] => []
  | x :: xs =>
    if seen.any (fun y => pyEqB y x) then pyDedupAux seen xs
    else x :: pyDedupAux (seen ++ [x]) xs

/-- `set(val)` as a list of distinct representatives. -/
def pyDedup (l : List Json) : List Json := pyDedupAux [] l

/-- `sorted(s)` on a deduplicated set succeeds iff the set has at most one element or
all elements are in one comparison class (all numbers, or all strings). -/
def pyComparableB (l : List Json) : Bool :=
  decide (l.length ≤ 1) || l.all (fun x => sortClass x == 0) || l.all (fun x => sortClass x == 1)

/-- `REQUIRED_KEYS` from the script. -/
def REQUIRED_KEYS : List String :=
  ["SchemaVersion", "Name", "Description", "Company", "SiteURL", "Architectures", "OperatingSystems"]

/-- `VALID_ARCHITECTURES` from the script. -/
def VALID_ARCHITECTURES : List String := ["x64", "aarch64"]

/-- `VALID_OPERATING_SYSTEMS` from the script. -/
def VALID_OPERATING_SYSTEMS : List String := ["Windows", "Linux"]

/-- Per-key check `if key in data and data[key] is not None and not isinstance(data[key], str)`. -/
def checkStrKey (kvs : List (String × Json)) (key : String) : List String :=
  match lookupKey kvs key with
  | none => []
  | some Json.null => []
  | some v => if isStrB v then [] else [key ++ " must be a string"]

/-- Errors for required keys absent from the object. -/
def missingErrs (kvs : List (String × Json)) : List String :=
  (REQUIRED_KEYS.filter (fun k => (lookupKey kvs k).isNone)).map
    (fun k => "missing required key: " ++ k)

/-- The `SchemaVersion` check. -/
def svErrs (kvs : List (String × Json)) : List String :=
  match lookupKey kvs "SchemaVersion" with
  | none => []
  | some v => if schemaVersionOkB v then [] else ["SchemaVersion must be the integer 1"]

/-- The four optional-string checks of the first string-field loop. -/
def strFieldErrs (kvs : List (String × Json)) : List String :=
  checkStrKey kvs "Name" ++ checkStrKey kvs "Description" ++
    checkStrKey kvs "Company" ++ checkStrKey kvs "SiteURL"

/-- The `MinNsightSystemsVersion` / `SetupNotes` checks of the last loop. -/
def extraStrErrs (kvs : List (String × Json)) : List String :=
  checkStrKey kvs "MinNsightSystemsVersion" ++ checkStrKey kvs "SetupNotes"

/-- The `Architectures` / `OperatingSystems` check.  `set(val)` raises `TypeError` when
`val` holds an unhashable item; `sorted(invalid)` raises `TypeError` when the invalid
set mixes comparison classes.  Both uncaught exceptions are modelled as `.error ()`. -/
def checkEnumKey (kvs : List (String × Json)) (key : String) (valid : List String) :
    Except Unit (List String) :=
  match lookupKey kvs key with
  | none => .ok []
  | some v =>
    match v with
    | .arr items =>
      let itemErrs := (items.enum.filter (fun ip => !(isStrB ip.2))).map
        (fun ip => key ++ "[" ++ toString ip.1 ++ "] must be a string")
      if items.any (fun x => !(hashableB x)) then
        .error ()
      else
        let invalid := pyDedup (items.filter
          (fun x => !(valid.any (fun s => pyEqB x (Json.str s)))))
        if invalid.isEmpty then .ok itemErrs
        else if pyComparableB invalid then
          .ok (itemErrs ++ [key ++ " must only contain valid values"])
        else .error ()
    | _ => .ok [key ++ " must be an array"]

/-- The per-entry `Images[i]` check. -/
def imageEntryErrs (i : Nat) (e : Json) : List String :=
  match e with
  | .obj ekvs =>
    (match lookupKey ekvs "Path" with
     | none => []
     | some Json.null => []
     | some v => if isStrB v then []
                 else ["Images[" ++ toString i ++ "].Path must be a string"]) ++
    (match lookupKey ekvs "Description" with
     | none => []
     | some Json.null => []
     | some v => if isStrB v then []
                 else ["Images[" ++ toString i ++ "].Description must be a string"])
  | _ => ["Images[" ++ toString i ++ "] must be an object"]

/-- The `Images` check. -/
def imagesErrs (kvs : List (String × Json)) : List String :=
  match lookupKey kvs "Images" with
  | none => []
  | some (.arr entries) => (entries.enum.map (fun ip => imageEntryErrs ip.1 ip.2)).flatten
  | some _ => ["Images must be an array"]

/-- `validate_plugin_json` (lines 18-75).  Error strings are built in source order; the
pure checks never raise, so hoisting the two possibly-raising enum checks in front of
the concatenation is observationally identical to the source's sequential loop. -/
def validate_plugin_json (data : Json) : Except Unit (List String) :=
  match data with
  | .obj kvs =>
    match checkEnumKey kvs "Architectures" VALID_ARCHITECTURES with
    | .error e => .error e
    | .ok archErrs =>
      match checkEnumKey kvs "OperatingSystems" VALID_OPERATING_SYSTEMS with
      | .error e => .error e
      | .ok osErrs =>
        .ok (missingErrs kvs ++ svErrs kvs ++ strFieldErrs kvs ++ archErrs ++ osErrs ++
              imagesErrs kvs ++ extraStrErrs kvs)
  | _ => .ok ["root must be a JSON object"]

/-! ### `escape` (lines 106-113) -/

/-- Python `s.replace(c, r)` for a single-character needle, on character lists. -/
def pyReplace (c : Char) (r : List Char) : List Char → List Char
  | [] => []
  | a :: as => (if a = c then r else [a]) ++ pyReplace c r as

/-- The four chained replacements of `escape`, in source order. -/
def escapeL (s : List Char) : List Char :=
  pyReplace '"' "&quot;".data
    (pyReplace '>' "&gt;".data
      (pyReplace '<' "&lt;".data
        (pyReplace '&' "&amp;".data s)))

/-- `escape` (lines 106-113): HTML-escape `&`, `<`, `>`, `"`. -/
def escape (s : String) : String := String.mk (escapeL s.data)

/-! ### `collect_plugins` (lines 88-103) -/

/-- One directory entry: file name, and the outcome of `json.load` on its content
(`none` models OSError / JSONDecodeError, which `load_plugin_json` turns into `None`). -/
abbrev Entry : Type := String × Option Json

/-- Name match of the glob pattern `*.json`: `pathlib` glob is case-sensitive and,
unlike a shell, its `*` also matches names starting with a dot.  The suffix test is
`String.endsWith` expressed on character lists. -/
def globMatch (name : String) : Bool :=
  ".json".data.isSuffixOf name.data

/-- Lexicographic code-point comparison of character lists, Python's string `<=`. -/
def charListLeB : List Char → List Char → Bool
  | [], _ => true
  | _ :: _, [] => false
  | a :: as, b :: bs =>
    if a = b then charListLeB as bs else decide (a.toNat < b.toNat)

/-- Python string `<=`. -/
def strLeB (a b : String) : Bool := charListLeB a.data b.data

/-- Order used by `sorted(input_dir.glob("*.json"))`: all paths share the directory
prefix, so `Path` order is file-name string order. -/
def entryLe (a b : Entry) : Prop := strLeB a.1 b.1 = true

instance : DecidableRel entryLe := fun a b =>
  inferInstanceAs (Decidable (strLeB a.1 b.1 = true))

theorem charListLeB_total (as bs : List Char) :
    charListLeB as bs = true ∨ charListLeB bs as = true := by
  induction as generalizing bs with
  | nil => exact Or.inl rfl
  | cons a at' ih =>
    cases bs with
    | nil => exact Or.inr rfl
    | cons b bt =>
      by_cases hab : a = b
      · subst hab
        simpa [charListLeB] using ih bt
      · have hba : b ≠ a := fun h => hab h.symm
        rcases Nat.lt_or_ge a.toNat b.toNat with h | h
        · exact Or.inl (by simp [charListLeB, hab, h])
        · have hne : a.toNat ≠ b.toNat := by
            intro h'
            exact hab (Char.ext (by exact UInt32.toNat.inj h'))
          have : b.toNat < a.toNat := lt_of_le_of_ne h (fun h' => hne h'.symm)
          exact Or.inr (by simp [charListLeB, hba, this])

theorem charListLeB_trans (as bs cs : List Char) (h₁ : charListLeB as bs = true)
    (h₂ : charListLeB bs cs = true) : charListLeB as cs = true := by
  induction as generalizing bs cs with
  | nil => rfl
  | cons a at' ih =>
    cases bs with
    | nil => simp [charListLeB] at h₁
    | cons b bt =>
      cases cs with
      | nil => simp [charListLeB] at h₂
      | cons c ct =>
        by_cases hab : a = b <;> by_cases hbc : b = c
        · subst hab; subst hbc
          simp only [charListLeB, if_pos rfl] at h₁ h₂ ⊢
          exact ih bt ct h₁ h₂
        · subst hab
          simpa [charListLeB, hbc] using h₂
        · subst hbc
          simpa [charListLeB, hab] using h₁
        · simp only [charListLeB, if_neg hab] at h₁
          simp only [charListLeB, if_neg hbc] at h₂
          have hlt : a.toNat < c.toNat :=
            Nat.lt_trans (of_decide_eq_true h₁) (of_decide_eq_true h₂)
          have hac : a ≠ c := by
            intro h; subst h; exact Nat.lt_irrefl _ hlt
          simp [charListLeB, hac, hlt]

theorem charListLeB_antisymm (as bs : List Char) (h₁ : charListLeB as bs = true)
    (h₂ : charListLeB bs as = true) : as = bs := by
  induction as generalizing bs with
  | nil =>
    cases bs with
    | nil => rfl
    | cons b bt => simp [charListLeB] at h₂
  | cons a at' ih =>
    cases bs with
    | nil => simp [charListLeB] at h₁
    | cons b bt =>
      by_cases hab : a = b
      · subst hab
        simp only [charListLeB, if_pos rfl] at h₁ h₂
        exact congrArg _ (ih bt h₁ h₂)
      · have hba : b ≠ a := fun h => hab h.symm
        simp only [charListLeB, if_neg hab] at h₁
        simp only [charListLeB, if_neg hba] at h₂
        exact absurd (Nat.lt_trans (of_decide_eq_true h₁) (of_decide_eq_true h₂))
          (Nat.lt_irrefl _)

theorem strLeB_antisymm (a b : String) (h₁ : strLeB a b = true) (h₂ : strLeB b a = true) :
    a = b := by
  cases a with
  | mk da =>
    cases b with
    | mk db => exact congrArg String.mk (charListLeB_antisymm da db h₁ h₂)

instance : IsTotal Entry entryLe := ⟨fun a b => charListLeB_total a.1.data b.1.data⟩

instance : IsTrans Entry entryLe := ⟨fun _ _ _ h₁ h₂ => charListLeB_trans _ _ _ h₁ h₂⟩

/-- The sorted `*.json` file list the loop of `collect_plugins` iterates over. -/
def sortedJsonEntries (entries : List Entry) : List Entry :=
  List.insertionSort entryLe (entries.filter (fun nc => globMatch nc.1))

/-- The body of the `collect_plugins` loop: parse failures and validation failures are
logged (stderr messages accumulate in the second component) and skipped; a raising
`validate_plugin_json` propagates. -/
def collectGo (dir : String) : List Entry → Except Unit (List Json × List String)
  | [] => .ok ([], [])
  | (name, c) :: rest =>
    match c with
    | none =>
      match collectGo dir rest with
      | .error e => .error e
      | .ok (ps, log) =>
        .ok (ps, ("Error: failed to parse " ++ dir ++ "/" ++ name) ::
                 ("Error: failed to load " ++ dir ++ "/" ++ name ++ ":") :: log)
    | some data =>
      match validate_plugin_json data with
      | .error e => .error e
      | .ok [] =>
        match collectGo dir rest with
        | .error e => .error e
        | .ok (ps, log) => .ok (data :: ps, log)
      | .ok errs =>
        match collectGo dir rest with
        | .error e => .error e
        | .ok (ps, log) =>
          .ok (ps, (("Error: invalid format in " ++ dir ++ "/" ++ name ++ ":") ::
                    errs.map (fun e => "  - " ++ e)) ++ log)

/-- `collect_plugins` (lines 88-103). -/
def collect_plugins (dir : String) (entries : List Entry) :
    Except Unit (List Json × List String) :=
  collectGo dir (sortedJsonEntries entries)

/-! ### `build_html` (lines 116-224) -/

/-- `escape(v)` for a value fetched from a dict: `.replace` on a non-string raises
AttributeError (uncaught), modelled as `.error ()`. -/
def escJ : Json → Except Unit String
  | .str s => .ok (escape s)
  | _ => .error ()

/-- `escape(p.get(key, dflt))` with a string literal default. -/
def getEsc (kvs : List (String × Json)) (key dflt : String) : Except Unit String :=
  match lookupKey kvs key with
  | none => .ok (escape dflt)
  | some v => escJ v

/-- Python `str(v)`.  The `float`, `arr` and `obj` branches are tagged placeholders:
their Python text (`repr`-style) is not modelled, and they are unreachable from a
schema-valid plugin because `MinNsightSystemsVersion` must be a string or null. -/
def pyStrOf : Json → String
  | .null => "None"
  | .bool b => if b then "True" else "False"
  | .int n => toString n
  | .str s => s
  | .float => "float"
  | .arr _ => "list"
  | .obj _ => "dict"

/-- Python truthiness.  A payload-free `float` is taken as truthy (`0.0` is falsy in
Python); no claim observes this branch. -/
def pyTruthy : Json → Bool
  | .null => false
  | .bool b => b
  | .int n => n != 0
  | .float => true
  | .str s => s != ""
  | .arr xs => !xs.isEmpty
  | .obj kvs => !kvs.isEmpty

/-- `", ".join(p.get(key, []))`: joins a list of strings, iterates a string by
characters, iterates a dict by keys; raises TypeError on non-string elements and on
non-iterable values. -/
def pyJoinComma : Option Json → Except Unit String
  | none => .ok ""
  | some (.arr xs) =>
    if xs.all isStrB then .ok (String.intercalate ", " (xs.map pyStrOf)) else .error ()
  | some (.str s) => .ok (String.intercalate ", " (s.data.map Char.toString))
  | some (.obj kvs) => .ok (String.intercalate ", " (kvs.map Prod.fst))
  | some _ => .error ()

/-- The image anchor markup of line 141. -/
def imgMarkup (path_esc alt : String) : String :=
  "<a href=\"" ++ path_esc ++ "\"><img src=\"" ++ path_esc ++ "\" alt=\"" ++ alt ++
    "\" class=\"plugin-img\" /></a>"

/-- Lines 133-141: `images = p.get("Images") or []`; only `images[0]` is inspected.
`alt` is computed before the `if path:` test, so a non-string `Images[0].Description`
raises even when no markup would be emitted.  Indexing a truthy non-list and `.get`
on a non-dict entry raise as well. -/
def imgHtmlOf (imagesVal : Option Json) (name : String) : Except Unit String :=
  let images := match imagesVal with
    | none => Json.arr []
    | some v => if pyTruthy v then v else Json.arr []
  match images with
  | .arr [] => .ok ""
  | .arr (first :: _) =>
    match first with
    | .obj fkvs =>
      match (match lookupKey fkvs "Description" with
             | none => Except.ok (escape name)
             | some v => escJ v) with
      | .error e => .error e
      | .ok alt =>
        match lookupKey fkvs "Path" with
        | none => .ok ""
        | some pv =>
          if pyTruthy pv then
            match pv with
            | .str s => .ok (imgMarkup (escape s) alt)
            | _ => .error ()
          else .ok ""
    | _ => .error ()
  | _ => .error ()

/-- `escape(archs) or "-"`. -/
def orDash (s : String) : String := if s = "" then "-" else s

/-- The table-of-contents row of line 125. -/
def tocRowOf (i : Nat) (name : String) : String :=
  "        <li><a href=\"#plugin-" ++ toString i ++ "\">" ++ name ++ "</a></li>"

/-- The per-plugin card f-string of lines 144-159. -/
def cardBody (i : Nat) (name desc img_html archs oses min_ver setup_notes site_link
    company : String) : String :=
  "\n        <article class=\"plugin-card\" id=\"plugin-" ++ toString i ++ "\">\n" ++
  "            <div class=\"plugin-header\">\n" ++
  "                <h2>" ++ name ++ "</h2>\n" ++
  "            </div>\n" ++
  "            <p class=\"plugin-desc\">" ++ desc ++ "</p>\n" ++
  "            " ++
  (if img_html = "" then "" else "<div class=\"plugin-thumb\">" ++ img_html ++ "</div>") ++
  "\n            <dl class=\"plugin-meta\">\n" ++
  "                <dt>Architectures</dt><dd>" ++ orDash (escape archs) ++ "</dd>\n" ++
  "                <dt>Operating systems</dt><dd>" ++ orDash (escape oses) ++ "</dd>\n" ++
  "                " ++
  (if min_ver = "" then ""
   else "<dt>Minimal Nsight Systems version</dt><dd>" ++ min_ver ++ "</dd>") ++
  "\n                " ++
  (if setup_notes = "" then "" else "<dt>Setup Notes</dt><dd>" ++ setup_notes ++ "</dd>") ++
  "\n                <dt>Site URL</dt><dd>" ++
  (if site_link = "" then "" else "<p class=\"plugin-link\">" ++ site_link ++ "</p>") ++
  "</dd>\n" ++
  "                <dt>Company</dt><dd>" ++ company ++ "</dd>\n" ++
  "            </dl>\n" ++
  "        </article>"

/-- Truthiness of `site_url = p.get("SiteURL", "")` (line 142); the non-string branch
is unreachable because `site_esc = escape(site_url)` has already raised for those. -/
def siteTruthyB (o : Option Json) : Bool :=
  match o with
  | none => false
  | some v => pyTruthy v

/-- The loop body of `build_html` (lines 121-160) for one plugin: produces the
table-of-contents row and the card body, in source evaluation order.  `p.get` on a
non-dict plugin raises AttributeError (unreachable from `main`, where every collected
plugin passed validation and hence is a dict). -/
def renderCard (i : Nat) (p : Json) : Except Unit (String × String) :=
  match p with
  | .obj kvs =>
    match getEsc kvs "Company" "Unnamed" with
    | .error e => .error e
    | .ok company =>
      match getEsc kvs "Name" "Unnamed" with
      | .error e => .error e
      | .ok name =>
        match getEsc kvs "Description" "" with
        | .error e => .error e
        | .ok desc =>
          match getEsc kvs "SiteURL" "" with
          | .error e => .error e
          | .ok site_esc =>
            match pyJoinComma (lookupKey kvs "Architectures") with
            | .error e => .error e
            | .ok archs =>
              match pyJoinComma (lookupKey kvs "OperatingSystems") with
              | .error e => .error e
              | .ok oses =>
                let min_ver := escape (match lookupKey kvs "MinNsightSystemsVersion" with
                  | none => ""
                  | some v => pyStrOf v)
                match getEsc kvs "SetupNotes" "" with
                | .error e => .error e
                | .ok setup_notes =>
                  match imgHtmlOf (lookupKey kvs "Images") name with
                  | .error e => .error e
                  | .ok img_html =>
                    let site_link :=
                      if siteTruthyB (lookupKey kvs "SiteURL") then
                        "<a href=\"" ++ site_esc ++ "\" rel=\"noopener noreferrer\">" ++
                          site_esc ++ "</a>"
                      else ""
                    .ok (tocRowOf i name,
                         cardBody i name desc img_html archs oses min_ver setup_notes
                           site_link company)
  | _ => .error ()

/-- The `for i, p in enumerate(plugins)` loop of `build_html`. -/
def renderCards (i : Nat) : List Json → Except Unit (List (String × String))
  | [] => .ok []
  | p :: rest =>
    match renderCard i p with
    | .error e => .error e
    | .ok row =>
      match renderCards (i + 1) rest with
      | .error e => .error e
      | .ok rows => .ok (row :: rows)

/-- The fixed page template of lines 163-222 around the `{toc}` and `{body}` splices
(`title` is the constant `"Nsight Systems Plugins"`). -/
def htmlPage (toc body : String) : String :=
  let title := "Nsight Systems Plugins"
  "<!DOCTYPE html>\n<html lang=\"en\">\n<head>\n" ++
  "    <meta charset=\"UTF-8\" />\n" ++
  "    <meta name=\"viewport\" content=\"width=device-width, initial-scale=1\" />\n" ++
  "    <title>" ++ title ++ "</title>\n" ++
  "    <link rel=\"icon\" type=\"image/x-icon\" href=\"./Images/nvidia-favicon.ico\">\n" ++
  "    <style>\n" ++
  "        :root \x7b font-family: system-ui, sans-serif; line-height: 1.5; color: #1a1a1a; background: #f5f5f5; \x7d\n" ++
  "        body \x7b max-width: 720px; margin: 0 auto; padding: 1.5rem; \x7d\n" ++
  "        .page-header \x7b display: flex; align-items: center; gap: 1rem; margin-bottom: 0.5rem; \x7d\n" ++
  "        .page-header img \x7b height: 5rem; width: auto; display: block; margin-left: -1.5rem; \x7d\n" ++
  "        h1 \x7b margin: 0; \x7d\n" ++
  "        .toc \x7b background: #fff; border-radius: 8px; padding: 1rem 1.25rem; margin-bottom: 1.5rem; box-shadow: 0 1px 3px rgba(0,0,0,0.08); \x7d\n" ++
  "        .toc ul \x7b margin: 0; padding-left: 1.5rem; \x7d\n" ++
  "        .toc li \x7b margin: 0.35rem 0; \x7d\n" ++
  "        .toc a \x7b color: #0066cc; text-decoration: none; \x7d\n" ++
  "        .toc a:hover \x7b text-decoration: underline; \x7d\n" ++
  "        .plugin-card \x7b background: #fff; border-radius: 8px; padding: 1.25rem; margin-bottom: 1.5rem; box-shadow: 0 1px 3px rgba(0,0,0,0.08); \x7d\n" ++
  "        .plugin-header \x7b display: flex; align-items: flex-start; gap: 1rem; flex-wrap: wrap; \x7d\n" ++
  "        .plugin-header h2 \x7b margin: 0 0 0.5rem 0; font-size: 1.25rem; \x7d\n" ++
  "        .plugin-thumb \x7b flex-shrink: 0; \x7d\n" ++
  "        .plugin-thumb a \x7b text-decoration: none; display: inline-block; \x7d\n" ++
  "        .plugin-img \x7b max-width: 700px; max-height: 300px; object-fit: contain; border-radius: 4px; \x7d\n" ++
  "        .plugin-desc \x7b margin: 0.5rem 0; color: #333; \x7d\n" ++
  "        .plugin-meta \x7b margin: 0.75rem 0; font-size: 0.9rem; \x7d\n" ++
  "        .plugin-meta dt \x7b font-weight: 600; margin-top: 0.25rem; \x7d\n" ++
  "        .plugin-meta dd \x7b margin: 0 0 0 1rem; \x7d\n" ++
  "        .plugin-link \x7b margin: 0.5rem 0 0 0; \x7d\n" ++
  "        .plugin-link a \x7b color: #0066cc; \x7d\n" ++
  "    </style>\n</head>\n<body>\n" ++
  "    <header class=\"page-header\">\n" ++
  "        <img src=\"./Images/nvidia-logo-horiz-rgb-blk-for-screen.svg\" alt=\"NVIDIA\" />\n" ++
  "    </header>\n" ++
  "    <h1>" ++ title ++ "</h1>\n" ++
  "    <p>This site lists Nsight Systems third-party plugins.<p>\n" ++
  "    <ul>\n" ++
  "        <li>For information about Nsight Systems, visit the <a href=\"https://developer.nvidia.com/nsight-systems\" target=\"_blank\" rel=\"noopener noreferrer\">Nsight Systems website</a>.</li>\n" ++
  "        <li>To add a third-party plugin to this list, refer to the instructions provided in the <a href=\"https://github.com/NVIDIA/NsightSystemsPlugins/blob/main/ADD_PLUGIN.md\" target=\"_blank\" rel=\"noopener noreferrer\">ADD_PLUGIN.md file.</a> file.</li>\n" ++
  "    </ul>\n" ++
  "    <nav class=\"toc\" aria-label=\"Plugin list\">\n" ++
  "    <p><b>Table of Contents</b></p>\n" ++
  "        <ul>\n" ++
  "            " ++ toc ++ "\n" ++
  "        </ul>\n" ++
  "        <p><a href=\"#legal-disclaimer\">Legal Disclaimer</a></p>\n" ++
  "    </nav>\n" ++
  body ++ "\n" ++
  "<article class=\"plugin-card\" id=\"legal-disclaimer\">\n" ++
  "<p><b>Legal Disclaimer</b></p>\n" ++
  "    <p>The plugins made available on this site are third-party projects provided solely as a convenience and resource for developers. These plugins are not developed, reviewed, tested, modified, or endorsed by us.</p>\n" ++
  "    <p>Third-party plugins may contain errors, security vulnerabilities, or functionality that is inaccurate, incomplete, or otherwise undesirable. By downloading or using any plugin, you acknowledge and agree that you do so at your own risk. We disclaim all responsibility and liability for any harm, damage, or loss arising from the use of these plugins.</p>\n" ++
  "    <p>Use of any plugin is subject to the applicable third-party license terms, and you are solely responsible for complying with those terms.</p>\n" ++
  "    <p>We do not provide support, updates, or security fixes for these plugins.</p>\n" ++
  "</article>\n</body>\n</html>\n"

/-- `build_html` (lines 116-224) up to the file write: returns the HTML text; the
write itself is recorded by `main`. -/
def build_html (plugins : List Json) : Except Unit String :=
  match renderCards 0 plugins with
  | .error e => .error e
  | .ok rows =>
    .ok (htmlPage (String.intercalate "\n" (rows.map Prod.fst))
                  (String.intercalate "\n" (rows.map Prod.snd)))

/-- The HTML produced by a run over a directory listing (used to state determinism). -/
def runHtml (dir : String) (entries : List Entry) : Except Unit String :=
  match collect_plugins dir entries with
  | .error e => .error e
  | .ok (ps, _) => build_html ps

/-! ### `main` (lines 227-263) -/

/-- Parsed command line: `argparse` defaults both flags to `None`. -/
structure Args where
  input_dir : Option String
  output_file : Option String

/-- `main` (lines 227-263).  `fs` maps a (resolved) directory path to its listing, or
`none` when `input_dir.is_dir()` is false.  The result is the exit code together with
the list of file writes performed; an uncaught exception (`.error ()`) carries no
writes because every modelled exception point precedes the single `write_text`.  With
`--input-dir` absent, `args.input_dir.resolve()` raises AttributeError on `None`. -/
def main (args : Args) (fs : String → Option (List Entry)) :
    Except Unit (Nat × List (String × String)) :=
  match args.input_dir with
  | none => .error ()
  | some d =>
    match fs d with
    | none => .ok (1, [])
    | some entries =>
      match args.output_file with
      | none => .ok (1, [])
      | some o =>
        match collect_plugins d entries with
        | .error e => .error e
        | .ok (plugins, _log) =>
          if plugins.isEmpty then .ok (1, [])
          else
            match build_html plugins with
            | .error e => .error e
            | .ok html => .ok (0, [(o, html)])

/-! ### Claim-side schema predicates (stated from the claims' wording, for C3) -/

/-- A field that, when present, must be a string or null (claim C3 wording). -/
def strOrNullB (o : Option Json) : Bool :=
  match o with
  | none => true
  | some Json.null => true
  | some (Json.str _) => true
  | some _ => false

/-- Claim C3's per-item condition for enum lists: a string drawn from the valid set. -/
def validItemB (valid : List String) (x : Json) : Bool :=
  match x with
  | .str s => decide (s ∈ valid)
  | _ => false

/-- Claim C3 wording for `Architectures` / `OperatingSystems`: present, a list of
strings drawn from the valid set. -/
def enumFieldB (o : Option Json) (valid : List String) : Bool :=
  match o with
  | some (.arr xs) => xs.all (validItemB valid)
  | _ => false

/-- Claim C3 wording for an `Images` entry: an object whose `Path` and `Description`,
when present, are strings or null. -/
def imageEntryB : Json → Bool
  | .obj ekvs => strOrNullB (lookupKey ekvs "Path") && strOrNullB (lookupKey ekvs "Description")
  | _ => false

/-- Claim C3 wording for `Images`: when present, a list of such objects. -/
def imagesFieldB (o : Option Json) : Bool :=
  match o with
  | none => true
  | some (.arr es) => es.all imageEntryB
  | some _ => false

/-- The schema of claim C3 with the `SchemaVersion` test as a parameter. -/
def schemaCoreB (kvs : List (String × Json)) (svOk : Json → Bool) : Bool :=
  REQUIRED_KEYS.all (fun k => (lookupKey kvs k).isSome) &&
  (match lookupKey kvs "SchemaVersion" with
   | some v => svOk v
   | none => false) &&
  (["Name", "Description", "Company", "SiteURL", "MinNsightSystemsVersion",
    "SetupNotes"].all (fun k => strOrNullB (lookupKey kvs k))) &&
  enumFieldB (lookupKey kvs "Architectures") VALID_ARCHITECTURES &&
  enumFieldB (lookupKey kvs "OperatingSystems") VALID_OPERATING_SYSTEMS &&
  imagesFieldB (lookupKey kvs "Images")

/-- The schema exactly as claim C3 words it: `SchemaVersion` is the JSON integer 1. -/
def claimSchemaB : Json → Bool
  | .obj kvs => schemaCoreB kvs (fun v => match v with
      | .int n => n == 1
      | _ => false)
  | _ => false

/-- The amended schema: `SchemaVersion` is the integer 1 or the JSON boolean `true`
(Python's `bool` is an `int` subclass with `True == 1`, so the validator accepts it). -/
def amendedSchemaB : Json → Bool
  | .obj kvs => schemaCoreB kvs schemaVersionOkB
  | _ => false

/-! ### Characterizing `validate_plugin_json` -/

theorem checkStrKey_eq_nil_iff (kvs : List (String × Json)) (key : String) :
    checkStrKey kvs key = [] ↔ strOrNullB (lookupKey kvs key) = true := by
  unfold checkStrKey strOrNullB
  rcases h : lookupKey kvs key with _ | v
  · simp
  · cases v <;> simp [isStrB]

theorem missingErrs_eq_nil_iff (kvs : List (String × Json)) :
    missingErrs kvs = [] ↔
      (REQUIRED_KEYS.all (fun k => (lookupKey kvs k).isSome)) = true := by
  unfold missingErrs
  rw [List.map_eq_nil_iff, List.filter_eq_nil_iff, List.all_eq_true]
  constructor
  · intro h k hk
    cases hkk : lookupKey kvs k with
    | none => exact absurd (by simp [hkk]) (h k hk)
    | some v => simp [hkk]
  · intro h k hk
    cases hkk : lookupKey kvs k with
    | none =>
      have := h k hk
      simp [hkk] at this
    | some v => simp [hkk]

theorem pyDedup_eq_nil_iff (l : List Json) : pyDedup l = [] ↔ l = [] := by
  cases l with
  | nil => simp [pyDedup, pyDedupAux]
  | cons x xs => simp [pyDedup, pyDedupAux]

/-- A value equal (Python `==`) to a given string is that string. -/
theorem pyEqB_str_iff (x : Json) (s : String) :
    pyEqB x (Json.str s) = true ↔ x = Json.str s := by
  cases x <;> simp [pyEqB]

theorem validAny_eq_validItemB (valid : List String) (x : Json) :
    (valid.any (fun s => pyEqB x (Json.str s))) = validItemB valid x := by
  rw [Bool.eq_iff_iff]
  simp only [List.any_eq_true]
  cases x <;> simp [pyEqB, validItemB]

theorem validItemB_isStr (valid : List String) (x : Json) (h : validItemB valid x = true) :
    isStrB x = true := by
  cases x <;> simp_all [validItemB, isStrB]

theorem validItemB_hashable (valid : List String) (x : Json)
    (h : validItemB valid x = true) : hashableB x = true := by
  cases x <;> simp_all [validItemB, hashableB]

theorem itemErrs_eq_nil_iff (items : List Json) (f : Nat × Json → String) :
    ((items.enum.filter (fun ip => !(isStrB ip.2))).map f) = [] ↔
      items.all isStrB = true := by
  rw [List.map_eq_nil_iff, List.filter_eq_nil_iff, List.all_eq_true]
  constructor
  · intro h x hx
    have hx' : x ∈ List.map Prod.snd items.enum := by rw [List.enum_map_snd]; exact hx
    obtain ⟨ip, hip, hsnd⟩ := List.mem_map.mp hx'
    have := h ip hip
    rw [hsnd] at this
    simpa using this
  · intro h ip hip
    have : ip.2 ∈ List.map Prod.snd items.enum := List.mem_map_of_mem Prod.snd hip
    rw [List.enum_map_snd] at this
    simp [h ip.2 this]

theorem checkEnumKey_eq_ok_nil_iff (kvs : List (String × Json)) (key : String)
    (valid : List String) :
    checkEnumKey kvs key valid = .ok [] ↔
      (lookupKey kvs key = none ∨ enumFieldB (lookupKey kvs key) valid = true) := by
  rcases hl : lookupKey kvs key with _ | v
  · simp [checkEnumKey, hl]
  · cases v with
    | arr items =>
      by_cases hP : items.all (validItemB valid) = true
      · have hstr : items.all isStrB = true := by
          rw [List.all_eq_true] at hP ⊢
          exact fun x hx => validItemB_isStr valid x (hP x hx)
        have hhash : items.any (fun x => !(hashableB x)) = false := by
          rw [List.all_eq_true] at hP
          rw [← Bool.not_eq_true, List.any_eq_true]
          rintro ⟨x, hx, hxb⟩
          rw [validItemB_hashable valid x (hP x hx)] at hxb
          simp at hxb
        have hfil : items.filter (fun x => !(valid.any (fun s => pyEqB x (Json.str s)))) = [] := by
          rw [List.filter_eq_nil_iff]
          intro x hx
          rw [List.all_eq_true] at hP
          simp [validAny_eq_validItemB, hP x hx]
        have hie := (itemErrs_eq_nil_iff items
          (fun ip => key ++ "[" ++ toString ip.1 ++ "] must be a string")).mpr hstr
        simp [checkEnumKey, hl, hhash, hfil, pyDedup, pyDedupAux, hie, enumFieldB, hP]
      · have hx' := hP
        rw [List.all_eq_true] at hx'
        push_neg at hx'
        obtain ⟨x, hx, hxv⟩ := hx'
        have hxv2 : validItemB valid x = false := by simpa using hxv
        have hrhs : (some (Json.arr items) = none ∨
            enumFieldB (some (Json.arr items)) valid = true) ↔ False := by
          simp [enumFieldB, hP]
        rw [hrhs]
        simp only [iff_false]
        intro h
        by_cases hh : items.any (fun y => !(hashableB y)) = true
        · simp [checkEnumKey, hl, hh] at h
        · rw [Bool.not_eq_true] at hh
          have hmem : x ∈ items.filter (fun y => !(valid.any (fun s => pyEqB y (Json.str s)))) :=
            List.mem_filter.mpr ⟨hx, by simp [validAny_eq_validItemB, hxv2]⟩
          have hne : items.filter (fun y => !(valid.any (fun s => pyEqB y (Json.str s)))) ≠ [] :=
            List.ne_nil_of_mem hmem
          have hde : (pyDedup (items.filter
              (fun y => !(valid.any (fun s => pyEqB y (Json.str s)))))).isEmpty = false := by
            rw [← Bool.not_eq_true, List.isEmpty_iff]
            intro hc
            exact hne ((pyDedup_eq_nil_iff _).mp hc)
          by_cases hc : pyComparableB (pyDedup (items.filter
              (fun y => !(valid.any (fun s => pyEqB y (Json.str s)))))) = true
          · simp [checkEnumKey, hl, hh, hde, hc] at h
          · rw [Bool.not_eq_true] at hc
            simp [checkEnumKey, hl, hh, hde, hc] at h
    | null => simp [checkEnumKey, hl, enumFieldB]
    | bool b => simp [checkEnumKey, hl, enumFieldB]
    | int n => simp [checkEnumKey, hl, enumFieldB]
    | float => simp [checkEnumKey, hl, enumFieldB]
    | str s => simp [checkEnumKey, hl, enumFieldB]
    | obj o => simp [checkEnumKey, hl, enumFieldB]

theorem imageEntryErrs_eq_nil_iff (i : Nat) (e : Json) :
    imageEntryErrs i e = [] ↔ imageEntryB e = true := by
  cases e with
  | obj ekvs =>
    simp only [imageEntryErrs, imageEntryB, List.append_eq_nil, Bool.and_eq_true]
    constructor
    · rintro ⟨h₁, h₂⟩
      constructor
      · rcases hp : lookupKey ekvs "Path" with _ | v
        · simp [strOrNullB]
        · rw [hp] at h₁
          cases v <;> simp_all [strOrNullB, isStrB]
      · rcases hp : lookupKey ekvs "Description" with _ | v
        · simp [strOrNullB]
        · rw [hp] at h₂
          cases v <;> simp_all [strOrNullB, isStrB]
    · rintro ⟨h₁, h₂⟩
      constructor
      · rcases hp : lookupKey ekvs "Path" with _ | v
        · simp
        · rw [hp] at h₁
          cases v <;> simp_all [strOrNullB, isStrB]
      · rcases hp : lookupKey ekvs "Description" with _ | v
        · simp
        · rw [hp] at h₂
          cases v <;> simp_all [strOrNullB, isStrB]
  | null => simp [imageEntryErrs, imageEntryB]
  | bool b => simp [imageEntryErrs, imageEntryB]
  | int n => simp [imageEntryErrs, imageEntryB]
  | float => simp [imageEntryErrs, imageEntryB]
  | str s => simp [imageEntryErrs, imageEntryB]
  | arr l => simp [imageEntryErrs, imageEntryB]

theorem imagesErrs_eq_nil_iff (kvs : List (String × Json)) :
    imagesErrs kvs = [] ↔ imagesFieldB (lookupKey kvs "Images") = true := by
  rcases hl : lookupKey kvs "Images" with _ | v
  · simp [imagesErrs, hl, imagesFieldB]
  · cases v with
    | arr entries =>
      simp only [imagesErrs, hl, imagesFieldB]
      rw [List.flatten_eq_nil_iff, List.all_eq_true]
      constructor
      · intro h e he
        have he' : e ∈ List.map Prod.snd entries.enum := by rw [List.enum_map_snd]; exact he
        obtain ⟨ip, hip, hsnd⟩ := List.mem_map.mp he'
        have := h _ (List.mem_map_of_mem (fun ip => imageEntryErrs ip.1 ip.2) hip)
        rw [hsnd] at this
        exact (imageEntryErrs_eq_nil_iff ip.1 e).mp this
      · intro h l hl'
        obtain ⟨ip, hip, hfl⟩ := List.mem_map.mp hl'
        have : ip.2 ∈ List.map Prod.snd entries.enum := List.mem_map_of_mem Prod.snd hip
        rw [List.enum_map_snd] at this
        rw [← hfl]
        exact (imageEntryErrs_eq_nil_iff ip.1 ip.2).mpr (h ip.2 this)
    | null => simp [imagesErrs, hl, imagesFieldB]
    | bool b => simp [imagesErrs, hl, imagesFieldB]
    | int n => simp [imagesErrs, hl, imagesFieldB]
    | float => simp [imagesErrs, hl, imagesFieldB]
    | str s => simp [imagesErrs, hl, imagesFieldB]
    | obj o => simp [imagesErrs, hl, imagesFieldB]

theorem svErrs_eq_nil_of_some (kvs : List (String × Json)) (v : Json)
    (h : lookupKey kvs "SchemaVersion" = some v) :
    svErrs kvs = [] ↔ schemaVersionOkB v = true := by
  unfold svErrs
  rw [h]
  by_cases hv : schemaVersionOkB v = true
  · simp [hv]
  · simp [hv]

/-- When an enum check raised or returned a nonempty list, the claim-side schema is
false on that key. -/
theorem schemaCoreB_false_of_enum_not_ok (kvs : List (String × Json)) (key : String)
    (valid : List String) (svOk : Json → Bool)
    (h : checkEnumKey kvs key valid ≠ .ok [])
    (hkey : key = "Architectures" ∨ key = "OperatingSystems")
    (hval : (key = "Architectures" → valid = VALID_ARCHITECTURES) ∧
            (key = "OperatingSystems" → valid = VALID_OPERATING_SYSTEMS)) :
    schemaCoreB kvs svOk = false := by
  have hne : enumFieldB (lookupKey kvs key) valid = false := by
    by_cases he : enumFieldB (lookupKey kvs key) valid = true
    · exact absurd ((checkEnumKey_eq_ok_nil_iff kvs key valid).mpr (Or.inr he)) h
    · simpa using he
  rw [← Bool.not_eq_true]
  intro hS
  unfold schemaCoreB at hS
  simp only [Bool.and_eq_true] at hS
  rcases hkey with hk | hk
  · subst hk
    rw [(hval.1 rfl)] at hne
    rw [hS.1.1.2] at hne
    simp at hne
  · subst hk
    rw [(hval.2 rfl)] at hne
    rw [hS.1.2] at hne
    simp at hne

/-- Full characterization of the validator: it accepts exactly the amended schema. -/
theorem validate_eq_ok_nil_iff_amended (data : Json) :
    validate_plugin_json data = .ok [] ↔ amendedSchemaB data = true := by
  cases data with
  | obj kvs =>
    rcases hA : checkEnumKey kvs "Architectures" VALID_ARCHITECTURES with u | archErrs
    · have hfalse := schemaCoreB_false_of_enum_not_ok kvs "Architectures" VALID_ARCHITECTURES
        schemaVersionOkB (by simp [hA]) (Or.inl rfl)
        ⟨fun _ => rfl, fun hc => absurd hc (by decide)⟩
      simp [validate_plugin_json, hA, amendedSchemaB, hfalse]
    · rcases hO : checkEnumKey kvs "OperatingSystems" VALID_OPERATING_SYSTEMS with u | osErrs
      · have hfalse := schemaCoreB_false_of_enum_not_ok kvs "OperatingSystems"
          VALID_OPERATING_SYSTEMS schemaVersionOkB (by simp [hO]) (Or.inr rfl)
          ⟨fun hc => absurd hc (by decide), fun _ => rfl⟩
        simp [validate_plugin_json, hA, hO, amendedSchemaB, hfalse]
      · constructor
        · intro h
          simp only [validate_plugin_json, hA, hO, Except.ok.injEq,
            List.append_eq_nil] at h
          obtain ⟨⟨⟨⟨⟨⟨hm, hsv⟩, hstr⟩, harch⟩, hos⟩, himg⟩, hex⟩ := h
          have hreq := (missingErrs_eq_nil_iff kvs).mp hm
          have hreq' := hreq
          rw [List.all_eq_true] at hreq'
          simp only [strFieldErrs, List.append_eq_nil] at hstr
          obtain ⟨⟨⟨hN, hD⟩, hC⟩, hU⟩ := hstr
          simp only [extraStrErrs, List.append_eq_nil] at hex
          obtain ⟨hM, hS⟩ := hex
          unfold amendedSchemaB schemaCoreB
          simp only [Bool.and_eq_true]
          refine ⟨⟨⟨⟨⟨hreq, ?_⟩, ?_⟩, ?_⟩, ?_⟩, ?_⟩
          · have hsome := hreq' "SchemaVersion" (by simp [REQUIRED_KEYS])
            obtain ⟨v, hv⟩ := Option.isSome_iff_exists.mp hsome
            rw [hv]
            exact (svErrs_eq_nil_of_some kvs v hv).mp hsv
          · rw [List.all_eq_true]
            intro k hk
            simp only [List.mem_cons, List.not_mem_nil, or_false] at hk
            rcases hk with rfl | rfl | rfl | rfl | rfl | rfl
            · exact (checkStrKey_eq_nil_iff kvs "Name").mp hN
            · exact (checkStrKey_eq_nil_iff kvs "Description").mp hD
            · exact (checkStrKey_eq_nil_iff kvs "Company").mp hC
            · exact (checkStrKey_eq_nil_iff kvs "SiteURL").mp hU
            · exact (checkStrKey_eq_nil_iff kvs "MinNsightSystemsVersion").mp hM
            · exact (checkStrKey_eq_nil_iff kvs "SetupNotes").mp hS
          · subst harch
            rcases (checkEnumKey_eq_ok_nil_iff kvs "Architectures"
                VALID_ARCHITECTURES).mp hA with hn | hf
            · have := hreq' "Architectures" (by simp [REQUIRED_KEYS])
              rw [hn] at this
              simp at this
            · exact hf
          · subst hos
            rcases (checkEnumKey_eq_ok_nil_iff kvs "OperatingSystems"
                VALID_OPERATING_SYSTEMS).mp hO with hn | hf
            · have := hreq' "OperatingSystems" (by simp [REQUIRED_KEYS])
              rw [hn] at this
              simp at this
            · exact hf
          · exact (imagesErrs_eq_nil_iff kvs).mp himg
        · intro h
          unfold amendedSchemaB schemaCoreB at h
          simp only [Bool.and_eq_true] at h
          obtain ⟨⟨⟨⟨⟨hreq, hsv⟩, hstrs⟩, harch⟩, hos⟩, himg⟩ := h
          have hm := (missingErrs_eq_nil_iff kvs).mpr hreq
          have hsv' : svErrs kvs = [] := by
            rcases hv : lookupKey kvs "SchemaVersion" with _ | v
            · rw [hv] at hsv
              simp at hsv
            · rw [hv] at hsv
              exact (svErrs_eq_nil_of_some kvs v hv).mpr hsv
          rw [List.all_eq_true] at hstrs
          have hN := (checkStrKey_eq_nil_iff kvs "Name").mpr (hstrs "Name" (by simp))
          have hD := (checkStrKey_eq_nil_iff kvs "Description").mpr
            (hstrs "Description" (by simp))
          have hC := (checkStrKey_eq_nil_iff kvs "Company").mpr (hstrs "Company" (by simp))
          have hU := (checkStrKey_eq_nil_iff kvs "SiteURL").mpr (hstrs "SiteURL" (by simp))
          have hM := (checkStrKey_eq_nil_iff kvs "MinNsightSystemsVersion").mpr
            (hstrs "MinNsightSystemsVersion" (by simp))
          have hS := (checkStrKey_eq_nil_iff kvs "SetupNotes").mpr
            (hstrs "SetupNotes" (by simp))
          have harch' : archErrs = [] := by
            have := (checkEnumKey_eq_ok_nil_iff kvs "Architectures"
              VALID_ARCHITECTURES).mpr (Or.inr harch)
            rw [hA] at this
            exact (Except.ok.inj this).symm ▸ rfl
          have hos' : osErrs = [] := by
            have := (checkEnumKey_eq_ok_nil_iff kvs "OperatingSystems"
              VALID_OPERATING_SYSTEMS).mpr (Or.inr hos)
            rw [hO] at this
            exact (Except.ok.inj this).symm ▸ rfl
          have himg' := (imagesErrs_eq_nil_iff kvs).mpr himg
          simp [validate_plugin_json, hA, hO, hm, hsv', strFieldErrs, extraStrErrs,
            hN, hD, hC, hU, hM, hS, harch', hos', himg']
  | null => simp [validate_plugin_json, amendedSchemaB]
  | bool b => simp [validate_plugin_json, amendedSchemaB]
  | int n => simp [validate_plugin_json, amendedSchemaB]
  | float => simp [validate_plugin_json, amendedSchemaB]
  | str s2 => simp [validate_plugin_json, amendedSchemaB]
  | arr l => simp [validate_plugin_json, amendedSchemaB]

/-! ### Properties of `escape` (for C8) -/

/-- The per-character effect of the four chained replacements. -/
def escChar (c : Char) : List Char :=
  if c = '&' then "&amp;".data
  else if c = '<' then "&lt;".data
  else if c = '>' then "&gt;".data
  else if c = '"' then "&quot;".data
  else [c]

theorem pyReplace_append (c : Char) (r xs ys : List Char) :
    pyReplace c r (xs ++ ys) = pyReplace c r xs ++ pyReplace c r ys := by
  induction xs with
  | nil => rfl
  | cons a as ih => simp [pyReplace, ih]

theorem escapeL_append (xs ys : List Char) :
    escapeL (xs ++ ys) = escapeL xs ++ escapeL ys := by
  simp [escapeL, pyReplace_append]

theorem escapeL_singleton (c : Char) : escapeL [c] = escChar c := by
  by_cases h1 : c = '&'
  · subst h1; rfl
  · by_cases h2 : c = '<'
    · subst h2; rfl
    · by_cases h3 : c = '>'
      · subst h3; rfl
      · by_cases h4 : c = '"'
        · subst h4; rfl
        · simp [escapeL, pyReplace, escChar, h1, h2, h3, h4]

theorem escapeL_cons (c : Char) (s : List Char) :
    escapeL (c :: s) = escChar c ++ escapeL s := by
  have h : c :: s = [c] ++ s := rfl
  rw [h, escapeL_append, escapeL_singleton]

/-- `cs` begins with the tail of one of the four entities `escape` introduces. -/
def entityTailB (cs : List Char) : Bool :=
  "amp;".data.isPrefixOf cs || "lt;".data.isPrefixOf cs ||
    "gt;".data.isPrefixOf cs || "quot;".data.isPrefixOf cs

/-- Claim C8's property: no `<`, `>` or `"` anywhere, and every `&` is the first
character of one of the substitutions `&amp;`, `&lt;`, `&gt;`, `&quot;`. -/
def entityEncodedB : List Char → Bool
  | [] => true
  | '<' :: _ => false
  | '>' :: _ => false
  | '"' :: _ => false
  | '&' :: cs => entityTailB cs && entityEncodedB cs
  | _ :: cs => entityEncodedB cs

theorem entityEncodedB_escChar (c : Char) (rest : List Char) :
    entityEncodedB (escChar c ++ rest) = entityEncodedB rest := by
  by_cases h1 : c = '&'
  · subst h1; simp [escChar, entityEncodedB, entityTailB, List.isPrefixOf]
  · by_cases h2 : c = '<'
    · subst h2; simp [escChar, entityEncodedB, entityTailB, List.isPrefixOf]
    · by_cases h3 : c = '>'
      · subst h3; simp [escChar, entityEncodedB, entityTailB, List.isPrefixOf]
      · by_cases h4 : c = '"'
        · subst h4; simp [escChar, entityEncodedB, entityTailB, List.isPrefixOf]
        · rw [show escChar c = [c] from by simp [escChar, h1, h2, h3, h4]]
          show entityEncodedB (c :: rest) = entityEncodedB rest
          simp [entityEncodedB, h1, h2, h3, h4]

theorem entityEncodedB_escapeL (s : List Char) : entityEncodedB (escapeL s) = true := by
  induction s with
  | nil => rfl
  | cons c cs ih =>
    rw [escapeL_cons, entityEncodedB_escChar]
    exact ih

/-! ### Properties of `collect_plugins` (for C2, C5, C6) -/

/-- Two sorted lists that are permutations of each other and have pairwise-distinct
names are equal (the directory sort is canonical). -/
theorem sorted_eq_of_perm_nodup :
    ∀ (l₁ l₂ : List Entry), l₁.Pairwise entryLe → l₂.Pairwise entryLe → l₁.Perm l₂ →
      (l₁.map Prod.fst).Nodup → l₁ = l₂ := by
  intro l₁
  induction l₁ with
  | nil =>
    intro l₂ _ _ hp _
    exact (hp.symm.eq_nil).symm ▸ rfl
  | cons a t₁ ih =>
    intro l₂ s₁ s₂ hp nd
    cases l₂ with
    | nil => exact absurd hp.eq_nil (by simp)
    | cons b t₂ =>
      have hab : a = b := by
        have ha2 : a ∈ b :: t₂ := hp.subset (List.mem_cons_self a t₁)
        have hb1 : b ∈ a :: t₁ := hp.symm.subset (List.mem_cons_self b t₂)
        rcases List.mem_cons.mp hb1 with hba | hbt
        · exact hba.symm
        · rcases List.mem_cons.mp ha2 with hab' | hat
          · exact hab'
          · have le1 : entryLe a b := (List.pairwise_cons.mp s₁).1 b hbt
            have le2 : entryLe b a := (List.pairwise_cons.mp s₂).1 a hat
            have hname : a.1 = b.1 := strLeB_antisymm a.1 b.1 le1 le2
            have hnotin : a.1 ∉ t₁.map Prod.fst := (List.nodup_cons.mp nd).1
            exact absurd (hname ▸ List.mem_map_of_mem Prod.fst hbt) hnotin
      subst hab
      have hp' : t₁.Perm t₂ := hp.cons_inv
      have nd' : (t₁.map Prod.fst).Nodup := (List.nodup_cons.mp nd).2
      exact congrArg (a :: ·)
        (ih t₂ (List.pairwise_cons.mp s₁).2 (List.pairwise_cons.mp s₂).2 hp' nd')

/-- The iterated file list is the same for any enumeration order of the directory. -/
theorem sortedJsonEntries_eq_of_perm (e₁ e₂ : List Entry) (hp : e₁.Perm e₂)
    (hnd : (e₁.map Prod.fst).Nodup) :
    sortedJsonEntries e₁ = sortedJsonEntries e₂ := by
  have hpf : (e₁.filter (fun nc => globMatch nc.1)).Perm
      (e₂.filter (fun nc => globMatch nc.1)) := hp.filter _
  have hperm : (sortedJsonEntries e₁).Perm (sortedJsonEntries e₂) :=
    ((List.perm_insertionSort entryLe _).trans hpf).trans
      (List.perm_insertionSort entryLe _).symm
  exact sorted_eq_of_perm_nodup _ _
    (List.sorted_insertionSort entryLe _)
    (List.sorted_insertionSort entryLe _)
    hperm
    (by
      have h₁ : ((e₁.filter (fun nc => globMatch nc.1)).map Prod.fst).Nodup :=
        hnd.sublist (List.Sublist.map Prod.fst (List.filter_sublist e₁))
      have h₂ := (List.perm_insertionSort entryLe
        (e₁.filter (fun nc => globMatch nc.1))).map Prod.fst
      exact h₂.nodup_iff.mpr h₁)

/-- Membership in the collected plugin list, along the loop. -/
theorem collectGo_mem_iff (dir : String) :
    ∀ (l : List Entry) (ps : List Json) (log : List String),
      collectGo dir l = .ok (ps, log) →
      ∀ p : Json, (p ∈ ps ↔ ∃ nc ∈ l, nc.2 = some p ∧ validate_plugin_json p = .ok []) := by
  intro l
  induction l with
  | nil =>
    intro ps log h p
    simp only [collectGo, Except.ok.injEq, Prod.mk.injEq] at h
    obtain ⟨rfl, rfl⟩ := h
    simp
  | cons nc rest ih =>
    obtain ⟨name, c⟩ := nc
    intro ps log h p
    cases c with
    | none =>
      rcases hr : collectGo dir rest with u | pr
      · rw [collectGo, hr] at h
        exact absurd h (by simp)
      · obtain ⟨ps', log'⟩ := pr
        rw [collectGo, hr] at h
        simp only [Except.ok.injEq, Prod.mk.injEq] at h
        obtain ⟨rfl, rfl⟩ := h
        rw [ih ps' log' hr p]
        constructor
        · rintro ⟨nc', hmem, hval⟩
          exact ⟨nc', List.mem_cons_of_mem _ hmem, hval⟩
        · rintro ⟨nc', hmem, hval⟩
          rcases List.mem_cons.mp hmem with rfl | hmem'
          · exact absurd hval.1 (by simp)
          · exact ⟨nc', hmem', hval⟩
    | some data =>
      rcases hv : validate_plugin_json data with u | errs
      · rw [collectGo, hv] at h
        exact absurd h (by simp)
      · cases errs with
        | nil =>
          rcases hr : collectGo dir rest with u | pr
          · rw [collectGo, hv, hr] at h
            exact absurd h (by simp)
          · obtain ⟨ps', log'⟩ := pr
            rw [collectGo, hv, hr] at h
            simp only [Except.ok.injEq, Prod.mk.injEq] at h
            obtain ⟨rfl, rfl⟩ := h
            rw [List.mem_cons, ih ps' log' hr p]
            constructor
            · rintro (rfl | ⟨nc', hmem, hval⟩)
              · exact ⟨(name, some p), List.mem_cons_self _ _, rfl, hv⟩
              · exact ⟨nc', List.mem_cons_of_mem _ hmem, hval⟩
            · rintro ⟨nc', hmem, hval⟩
              rcases List.mem_cons.mp hmem with rfl | hmem'
              · left
                have hdp : p = data := by
                  have := hval.1
                  simpa using this.symm
                exact hdp
              · right
                exact ⟨nc', hmem', hval⟩
        | cons e0 errs' =>
          rcases hr : collectGo dir rest with u | pr
          · rw [collectGo, hv, hr] at h
            exact absurd h (by simp)
          · obtain ⟨ps', log'⟩ := pr
            rw [collectGo, hv, hr] at h
            simp only [Except.ok.injEq, Prod.mk.injEq] at h
            obtain ⟨rfl, rfl⟩ := h
            rw [ih ps' log' hr p]
            constructor
            · rintro ⟨nc', hmem, hval⟩
              exact ⟨nc', List.mem_cons_of_mem _ hmem, hval⟩
            · rintro ⟨nc', hmem, hval⟩
              rcases List.mem_cons.mp hmem with rfl | hmem'
              · have hdp : p = data := by simpa using hval.1.symm
                subst hdp
                rw [hval.2] at hv
                exact absurd (Except.ok.inj hv) (by simp)
              · exact ⟨nc', hmem', hval⟩

/-- Membership in `collect_plugins`: exactly the data of files that match the glob,
parse, and validate with no errors. -/
theorem collect_mem_iff (dir : String) (entries : List Entry) (ps : List Json)
    (log : List String) (h : collect_plugins dir entries = .ok (ps, log)) (p : Json) :
    p ∈ ps ↔ ∃ name c, (name, c) ∈ entries ∧ globMatch name = true ∧ c = some p ∧
      validate_plugin_json p = .ok [] := by
  unfold collect_plugins at h
  rw [collectGo_mem_iff dir _ ps log h p]
  constructor
  · rintro ⟨nc, hmem, hc, hval⟩
    have hmem' : nc ∈ entries.filter (fun nc => globMatch nc.1) :=
      (List.perm_insertionSort entryLe _).subset hmem
    have hf := List.mem_filter.mp hmem'
    exact ⟨nc.1, nc.2, hf.1, hf.2, hc, hval⟩
  · rintro ⟨name, c, hmem, hg, hc, hval⟩
    refine ⟨(name, c), ?_, hc, hval⟩
    have : (name, c) ∈ entries.filter (fun nc => globMatch nc.1) :=
      List.mem_filter.mpr ⟨hmem, hg⟩
    exact (List.perm_insertionSort entryLe _).symm.subset this

/-! ### Properties of the renderer (for C9, C10) -/

theorem getEsc_ok_isStr (kvs : List (String × Json)) (k d sv : String)
    (h : getEsc kvs k d = .ok sv) (v : Json) (hv : lookupKey kvs k = some v) :
    isStrB v = true := by
  unfold getEsc at h
  rw [hv] at h
  cases v <;> simp [escJ, isStrB] at h ⊢

theorem build_html_singleton_ok (p : Json) (s : String)
    (h : build_html [p] = .ok s) : ∃ r, renderCard 0 p = .ok r := by
  rcases hr : renderCard 0 p with u | r
  · rw [build_html, renderCards, hr] at h
    exact absurd h (by simp)
  · exact ⟨r, rfl⟩

/-- A successful rendering forces every optional-string field that is present to be an
actual Python string: `escape` is applied to each one and `.replace` on any other
value raises. -/
theorem renderCard_ok_strings (i : Nat) (kvs : List (String × Json))
    (r : String × String) (h : renderCard i (.obj kvs) = .ok r) :
    ∀ k ∈ (["Name", "Description", "Company", "SiteURL", "SetupNotes"] : List String),
      ∀ v, lookupKey kvs k = some v → isStrB v = true := by
  rcases hc : getEsc kvs "Company" "Unnamed" with u | company
  · rw [renderCard, hc] at h
    exact absurd h (by simp)
  rcases hn : getEsc kvs "Name" "Unnamed" with u | name
  · rw [renderCard, hc, hn] at h
    exact absurd h (by simp)
  rcases hd : getEsc kvs "Description" "" with u | desc
  · rw [renderCard, hc, hn, hd] at h
    exact absurd h (by simp)
  rcases hu : getEsc kvs "SiteURL" "" with u | site
  · rw [renderCard, hc, hn, hd, hu] at h
    exact absurd h (by simp)
  rcases ha : pyJoinComma (lookupKey kvs "Architectures") with u | archs
  · rw [renderCard, hc, hn, hd, hu, ha] at h
    exact absurd h (by simp)
  rcases ho : pyJoinComma (lookupKey kvs "OperatingSystems") with u | oses
  · rw [renderCard, hc, hn, hd, hu, ha, ho] at h
    exact absurd h (by simp)
  rcases hs : getEsc kvs "SetupNotes" "" with u | setup
  · rw [renderCard, hc, hn, hd, hu, ha, ho, hs] at h
    exact absurd h (by simp)
  intro k hk v hv
  simp only [List.mem_cons, List.not_mem_nil, or_false] at hk
  rcases hk with rfl | rfl | rfl | rfl | rfl
  · exact getEsc_ok_isStr kvs "Name" "Unnamed" name hn v hv
  · exact getEsc_ok_isStr kvs "Description" "" desc hd v hv
  · exact getEsc_ok_isStr kvs "Company" "Unnamed" company hc v hv
  · exact getEsc_ok_isStr kvs "SiteURL" "" site hu v hv
  · exact getEsc_ok_isStr kvs "SetupNotes" "" setup hs v hv

/-- Only the head of a non-empty `Images` list is inspected. -/
theorem imgHtmlOf_tail_irrelevant (f : Json) (rest rest' : List Json) (n : String) :
    imgHtmlOf (some (Json.arr (f :: rest))) n = imgHtmlOf (some (Json.arr (f :: rest'))) n := by
  simp [imgHtmlOf, pyTruthy]

/-- Entries after the first never affect the rendered card. -/
theorem renderCard_images_tail (i : Nat) (f : Json) (rest rest' : List Json)
    (kvs : List (String × Json)) :
    renderCard i (.obj (("Images", Json.arr (f :: rest)) :: kvs)) =
      renderCard i (.obj (("Images", Json.arr (f :: rest')) :: kvs)) := by
  have key : ∀ n, imgHtmlOf (some (Json.arr (f :: rest))) n =
      imgHtmlOf (some (Json.arr (f :: rest'))) n :=
    fun n => imgHtmlOf_tail_irrelevant f rest rest' n
  simp [renderCard, getEsc, lookupKey, key]

/-- No image markup when `Images` is absent, empty, or the first entry's `Path` is
missing or the empty string. -/
theorem imgHtmlOf_no_markup (o : Option Json) (n s : String)
    (hcond : o = none ∨ o = some (Json.arr []) ∨
      (∃ fkvs r, o = some (Json.arr (Json.obj fkvs :: r)) ∧
        (lookupKey fkvs "Path" = none ∨ lookupKey fkvs "Path" = some (Json.str ""))))
    (h : imgHtmlOf o n = .ok s) : s = "" := by
  rcases hcond with rfl | rfl | ⟨fkvs, r, rfl, hpath⟩
  · simpa [imgHtmlOf] using h.symm
  · simpa [imgHtmlOf, pyTruthy] using h.symm
  · rcases halt : (match lookupKey fkvs "Description" with
        | none => Except.ok (escape n)
        | some v => escJ v) with u | alt
    · rw [imgHtmlOf] at h
      simp only [pyTruthy, List.isEmpty_cons, Bool.not_false, if_pos] at h
      rw [halt] at h
      exact absurd h (by simp)
    · rw [imgHtmlOf] at h
      simp only [pyTruthy, List.isEmpty_cons, Bool.not_false, if_pos] at h
      rw [halt] at h
      rcases hpath with hp | hp
      · rw [hp] at h
        simpa using h.symm
      · rw [hp] at h
        simpa [pyTruthy] using h.symm

/-! ### Properties of `main` (for C1, C7) -/

/-- Exit status 0 exactly when: the input flag is given and names a directory, the
output flag is given, collection succeeds with at least one plugin, and rendering
succeeds. -/
theorem main_eq_ok_zero_iff (args : Args) (fs : String → Option (List Entry)) :
    (∃ ws, main args fs = .ok (0, ws)) ↔
    (∃ d entries o ps log html, args.input_dir = some d ∧ fs d = some entries ∧
      args.output_file = some o ∧ collect_plugins d entries = .ok (ps, log) ∧
      ps ≠ [] ∧ build_html ps = .ok html) := by
  rcases hin : args.input_dir with _ | d
  · simp [main, hin]
  rcases hfs : fs d with _ | entries
  · simp [main, hin, hfs]
  rcases hout : args.output_file with _ | o
  · simp [main, hin, hfs, hout]
  rcases hcol : collect_plugins d entries with u | pr
  · simp [main, hin, hfs, hout, hcol]
  obtain ⟨ps, log⟩ := pr
  by_cases hps : ps.isEmpty = true
  · rw [List.isEmpty_iff] at hps
    subst hps
    simp [main, hin, hfs, hout, hcol]
  · have hne : ps ≠ [] := by
      intro hc
      subst hc
      simp at hps
    rcases hbh : build_html ps with u | html
    · simp [main, hin, hfs, hout, hcol, hps, hbh, hne]
    · constructor
      · intro _
        exact ⟨d, entries, o, ps, log, html, rfl, hfs, rfl, hcol, hne, hbh⟩
      · intro _
        refine ⟨[(o, html)], ?_⟩
        simp [main, hin, hfs, hout, hcol, hps, hbh]

/-- Frame property: a run that returns an exit code wrote nothing unless it returned
0, in which case it wrote exactly the rendered page to the output path. -/
theorem main_writes_characterization (args : Args) (fs : String → Option (List Entry))
    (c : Nat) (ws : List (String × String)) (h : main args fs = .ok (c, ws)) :
    (c ≠ 0 → ws = []) ∧
    (c = 0 → ∃ d entries o ps log html, args.input_dir = some d ∧ fs d = some entries ∧
      args.output_file = some o ∧ collect_plugins d entries = .ok (ps, log) ∧
      build_html ps = .ok html ∧ ws = [(o, html)]) := by
  rcases hin : args.input_dir with _ | d
  · simp [main, hin] at h
  rcases hfs : fs d with _ | entries
  · simp only [main, hin, hfs, Except.ok.injEq, Prod.mk.injEq] at h
    obtain ⟨rfl, rfl⟩ := h
    exact ⟨fun _ => rfl, fun hc => absurd hc (by simp)⟩
  rcases hout : args.output_file with _ | o
  · simp only [main, hin, hfs, hout, Except.ok.injEq, Prod.mk.injEq] at h
    obtain ⟨rfl, rfl⟩ := h
    exact ⟨fun _ => rfl, fun hc => absurd hc (by simp)⟩
  rcases hcol : collect_plugins d entries with u | pr
  · simp [main, hin, hfs, hout, hcol] at h
  obtain ⟨ps, log⟩ := pr
  by_cases hps : ps.isEmpty = true
  · simp only [main, hin, hfs, hout, hcol, hps, if_true, Except.ok.injEq,
      Prod.mk.injEq] at h
    obtain ⟨rfl, rfl⟩ := h
    exact ⟨fun _ => rfl, fun hc => absurd hc (by simp)⟩
  · rcases hbh : build_html ps with u | html
    · simp [main, hin, hfs, hout, hcol, hps, hbh] at h
    · simp only [main, hin, hfs, hout, hcol, hps, if_false, hbh, Except.ok.injEq,
        Prod.mk.injEq] at h
      obtain ⟨rfl, rfl⟩ := h
      exact ⟨fun hc => absurd rfl hc,
        fun _ => ⟨d, entries, o, ps, log, html, rfl, hfs, rfl, hcol, hbh, rfl⟩⟩

/-! ### Concrete fixtures used by counterexamples and witnesses -/

/-- A fully valid plugin descriptor (all optional strings actual strings). -/
def goodKvs : List (String × Json) :=
  [("SchemaVersion", Json.int 1), ("Name", Json.str "A"), ("Description", Json.str "d"),
   ("Company", Json.str "c"), ("SiteURL", Json.str "https://example.com"),
   ("Architectures", Json.arr [Json.str "x64"]),
   ("OperatingSystems", Json.arr [Json.str "Linux"])]

/-- The valid plugin as a JSON value. -/
def goodPlugin : Json := Json.obj goodKvs

/-- A descriptor whose `SchemaVersion` is the JSON boolean `true`. -/
def svTruePlugin : Json := Json.obj
  [("SchemaVersion", Json.bool true), ("Name", Json.str "A"), ("Description", Json.str "d"),
   ("Company", Json.str "c"), ("SiteURL", Json.str "https://example.com"),
   ("Architectures", Json.arr [Json.str "x64"]),
   ("OperatingSystems", Json.arr [Json.str "Linux"])]

/-- A descriptor whose `Architectures` holds an unhashable item (`[[]]`). -/
def crashPlugin : Json := Json.obj
  [("SchemaVersion", Json.int 1), ("Name", Json.str "A"), ("Description", Json.str "d"),
   ("Company", Json.str "c"), ("SiteURL", Json.str "https://example.com"),
   ("Architectures", Json.arr [Json.arr []]),
   ("OperatingSystems", Json.arr [Json.str "Linux"])]

/-- A schema-valid descriptor whose `Name` is null (the validator permits null). -/
def nullNamePlugin : Json := Json.obj
  [("SchemaVersion", Json.int 1), ("Name", Json.null), ("Description", Json.str "d"),
   ("Company", Json.str "c"), ("SiteURL", Json.str "https://example.com"),
   ("Architectures", Json.arr [Json.str "x64"]),
   ("OperatingSystems", Json.arr [Json.str "Linux"])]

/-- A file system with one directory `in` holding one valid plugin file. -/
def fsC1 : String → Option (List Entry) :=
  fun d => if d = "in" then some [("a.json", some goodPlugin)] else none

/-- Command line of a successful run. -/
def argsGood : Args := ⟨some "in", some "out.html"⟩

/-- Directory with one valid plugin file and one unparseable file. -/
def fsGood : String → Option (List Entry) :=
  fun d => if d = "in" then some [("bad.json", none), ("a.json", some goodPlugin)] else none

/-- The writes performed by the successful run (computed from the model). -/
def wsGood : List (String × String) :=
  match main argsGood fsGood with
  | .ok (_, ws) => ws
  | _ => []

/-- The page text of the successful singleton rendering. -/
def htmlGood : String :=
  match build_html [goodPlugin] with
  | .ok h => h
  | _ => ""

/-- The rendered card of the valid plugin. -/
def cardGood : String × String :=
  match renderCard 0 (Json.obj goodKvs) with
  | .ok r => r
  | _ => ("", "")

/-! ### Claim theorems -/

/-- C1, counterexample: with an existing input directory holding a valid plugin file
but no `--output-file` flag, `main` returns 1, yet the claim says the run fails only
when the input directory is missing or no valid plugin files are found and that every
other invocation returns 0. -/
theorem C1_counterexample_missing_output_flag :
    main ⟨some "in", none⟩ fsC1 = .ok (1, []) ∧
    fsC1 "in" = some [("a.json", some goodPlugin)] ∧
    collect_plugins "in" [("a.json", some goodPlugin)] = .ok ([goodPlugin], []) :=
  ⟨rfl, rfl, rfl⟩

/-- C1, amended: `main` returns 0 exactly when the input flag is given and names a
directory, the output flag is given, `collect_plugins` completes with a nonempty
plugin list, and `build_html` completes; every other invocation returns 1 or dies on
an uncaught exception (modelled `.error ()`), hence exits nonzero. -/
theorem C1_amended_exit_zero_iff (args : Args) (fs : String → Option (List Entry)) :
    (∃ ws, main args fs = .ok (0, ws)) ↔
    (∃ d entries o ps log html, args.input_dir = some d ∧ fs d = some entries ∧
      args.output_file = some o ∧ collect_plugins d entries = .ok (ps, log) ∧
      ps ≠ [] ∧ build_html ps = .ok html) :=
  main_eq_ok_zero_iff args fs

/-- C2: when a run succeeds, the page `build_html` wrote lists exactly the plugins of
those `*.json` files that parsed and validated with an empty error list. -/
theorem C2_output_lists_exactly_valid_entries (args : Args)
    (fs : String → Option (List Entry)) (ws : List (String × String))
    (h : main args fs = .ok (0, ws)) :
    ∃ d entries o ps log html, args.input_dir = some d ∧ fs d = some entries ∧
      args.output_file = some o ∧ collect_plugins d entries = .ok (ps, log) ∧
      build_html ps = .ok html ∧ ws = [(o, html)] ∧
      ∀ p, (p ∈ ps ↔ ∃ name c, (name, c) ∈ entries ∧ globMatch name = true ∧
        c = some p ∧ validate_plugin_json p = .ok []) := by
  obtain ⟨d, entries, o, ps, log, html, hin, hfs, hout, hcol, hbh, hws⟩ :=
    (main_writes_characterization args fs 0 ws h).2 rfl
  exact ⟨d, entries, o, ps, log, html, hin, hfs, hout, hcol, hbh, hws,
    fun p => collect_mem_iff d entries ps log hcol p⟩

theorem C2_witness :
    main argsGood fsGood = .ok (0, wsGood) ∧
    ∃ d entries o ps log html, argsGood.input_dir = some d ∧ fsGood d = some entries ∧
      argsGood.output_file = some o ∧ collect_plugins d entries = .ok (ps, log) ∧
      build_html ps = .ok html ∧ wsGood = [(o, html)] ∧
      ∀ p, (p ∈ ps ↔ ∃ name c, (name, c) ∈ entries ∧ globMatch name = true ∧
        c = some p ∧ validate_plugin_json p = .ok []) :=
  ⟨rfl, C2_output_lists_exactly_valid_entries argsGood fsGood wsGood rfl⟩

/-- C3, counterexample: the JSON boolean `true` as `SchemaVersion` passes the
validator (Python `bool` is an `int` with `True == 1`) but is not the integer 1, so
the claimed equivalence fails. -/
theorem C3_counterexample_schema_version_true :
    validate_plugin_json svTruePlugin = .ok [] ∧ claimSchemaB svTruePlugin = false :=
  ⟨rfl, rfl⟩

/-- C3, amended: the validator returns an empty error list exactly when the claimed
schema holds with `SchemaVersion` equal to the integer 1 or the boolean `true`. -/
theorem C3_amended_validator_iff_schema (data : Json) :
    validate_plugin_json data = .ok [] ↔ amendedSchemaB data = true :=
  validate_eq_ok_nil_iff_amended data

/-- C4: a schema-invalid file whose `Architectures` holds a list item is neither
logged-and-skipped nor recovered from: `validate_plugin_json` raises (Python
`set(val)` TypeError on the unhashable item), `collect_plugins` propagates the
exception and aborts, and the valid file sorted after it is never collected. -/
theorem C4_crash_on_unhashable_item :
    validate_plugin_json crashPlugin = .error () ∧
    collect_plugins "in" [("a.json", some crashPlugin), ("b.json", some goodPlugin)] =
      .error () ∧
    validate_plugin_json goodPlugin = .ok [] :=
  ⟨rfl, rfl, rfl⟩

/-- C5: for directory listings holding the same set of (name, content) files -- any
permutation, with directory-unique names -- collection yields the same plugin list
and the rendered page is character-for-character identical. -/
theorem C5_deterministic_output (dir : String) (e₁ e₂ : List Entry) (hp : e₁.Perm e₂)
    (hnd : (e₁.map Prod.fst).Nodup) :
    collect_plugins dir e₁ = collect_plugins dir e₂ ∧ runHtml dir e₁ = runHtml dir e₂ := by
  have hc : collect_plugins dir e₁ = collect_plugins dir e₂ := by
    unfold collect_plugins
    rw [sortedJsonEntries_eq_of_perm e₁ e₂ hp hnd]
  refine ⟨hc, ?_⟩
  unfold runHtml
  rw [hc]

theorem C5_witness :
    collect_plugins "in" [("b.json", none), ("a.json", some goodPlugin)] =
      collect_plugins "in" [("a.json", some goodPlugin), ("b.json", none)] ∧
    runHtml "in" [("b.json", none), ("a.json", some goodPlugin)] =
      runHtml "in" [("a.json", some goodPlugin), ("b.json", none)] :=
  C5_deterministic_output "in" _ _ (List.Perm.swap _ _ _) (by decide)

/-- C6: only names ending in `.json` are consulted; two directories agreeing on their
`*.json` entries produce identical collection results, so a non-matching file's
content has no effect. -/
theorem C6_non_json_files_no_effect (dir : String) (e₁ e₂ : List Entry)
    (h : e₁.filter (fun nc => ".json".data.isSuffixOf nc.1.data) =
         e₂.filter (fun nc => ".json".data.isSuffixOf nc.1.data)) :
    collect_plugins dir e₁ = collect_plugins dir e₂ := by
  unfold collect_plugins sortedJsonEntries globMatch
  rw [h]

theorem C6_witness :
    collect_plugins "in" [("a.json", some goodPlugin), ("x.txt", none)] =
      collect_plugins "in" [("a.json", some goodPlugin), ("y.txt", some crashPlugin)] :=
  C6_non_json_files_no_effect "in" _ _ rfl

/-- C7: a completed run writes nothing when it fails, and on success writes exactly
one file: the rendered page at the `--output-file` path. -/
theorem C7_exactly_one_write (args : Args) (fs : String → Option (List Entry))
    (c : Nat) (ws : List (String × String)) (h : main args fs = .ok (c, ws)) :
    (c ≠ 0 → ws = []) ∧
    (c = 0 → ∃ d entries o ps log html, args.input_dir = some d ∧ fs d = some entries ∧
      args.output_file = some o ∧ collect_plugins d entries = .ok (ps, log) ∧
      build_html ps = .ok html ∧ ws = [(o, html)]) :=
  main_writes_characterization args fs c ws h

theorem C7_witness :
    main argsGood fsGood = .ok (0, wsGood) ∧
    (((0 : Nat) ≠ 0 → wsGood = []) ∧
     ((0 : Nat) = 0 → ∃ d entries o ps log html, argsGood.input_dir = some d ∧
       fsGood d = some entries ∧ argsGood.output_file = some o ∧
       collect_plugins d entries = .ok (ps, log) ∧ build_html ps = .ok html ∧
       wsGood = [(o, html)])) :=
  ⟨rfl, C7_exactly_one_write argsGood fsGood 0 wsGood rfl⟩

/-- C8: `escape` output contains no `<`, `>` or `"`, and every `&` in it starts one
of the four substitutions `&amp;`, `&lt;`, `&gt;`, `&quot;` that `escape` introduces
(`entityEncodedB` is exactly that predicate). -/
theorem C8_escape_fully_entity_encoded (s : String) :
    entityEncodedB (escape s).data = true :=
  entityEncodedB_escapeL s.data

/-- C9: rendering is not total over validated input.  A plugin accepted by the
validator with `Name` null makes `build_html` raise; and whenever the per-plugin
rendering completes, each of `Name`, `Description`, `Company`, `SiteURL`,
`SetupNotes` that is present is an actual string. -/
theorem C9_rendering_not_total :
    (∃ p, validate_plugin_json p = .ok [] ∧ build_html [p] = .error ()) ∧
    (∀ p s, build_html [p] = .ok s → ∃ r, renderCard 0 p = .ok r) ∧
    (∀ i kvs r, renderCard i (.obj kvs) = .ok r →
      ∀ k ∈ (["Name", "Description", "Company", "SiteURL", "SetupNotes"] : List String),
        ∀ v, lookupKey kvs k = some v → isStrB v = true) :=
  ⟨⟨nullNamePlugin, rfl, rfl⟩,
   fun p s h => build_html_singleton_ok p s h,
   fun i kvs r h => renderCard_ok_strings i kvs r h⟩

theorem C9_witness :
    build_html [goodPlugin] = .ok htmlGood ∧
    (∃ r, renderCard 0 goodPlugin = .ok r) ∧
    (∀ k ∈ (["Name", "Description", "Company", "SiteURL", "SetupNotes"] : List String),
      ∀ v, lookupKey goodKvs k = some v → isStrB v = true) :=
  ⟨rfl, C9_rendering_not_total.2.1 goodPlugin htmlGood rfl,
   C9_rendering_not_total.2.2 0 goodKvs cardGood rfl⟩

/-- C10: only the head of `Images` can affect a plugin's card -- replacing the tail
changes nothing -- and whenever `Images` is absent, empty, or its first entry has a
missing or empty `Path`, the image markup is the empty string. -/
theorem C10_renders_first_image_only :
    (∀ (i : Nat) (f : Json) (rest rest' : List Json) (kvs : List (String × Json)),
      renderCard i (.obj (("Images", Json.arr (f :: rest)) :: kvs)) =
        renderCard i (.obj (("Images", Json.arr (f :: rest')) :: kvs))) ∧
    (∀ (o : Option Json) (n s : String),
      (o = none ∨ o = some (Json.arr []) ∨
        (∃ fkvs r, o = some (Json.arr (Json.obj fkvs :: r)) ∧
          (lookupKey fkvs "Path" = none ∨ lookupKey fkvs "Path" = some (Json.str "")))) →
      imgHtmlOf o n = .ok s → s = "") :=
  ⟨fun i f rest rest' kvs => renderCard_images_tail i f rest rest' kvs,
   fun o n s hcond h => imgHtmlOf_no_markup o n s hcond h⟩

theorem C10_witness :
    imgHtmlOf (some (Json.arr [])) "N" = .ok "" ∧ ("" : String) = "" :=
  ⟨rfl, C10_renders_first_image_only.2 (some (Json.arr [])) "N" ""
    (Or.inr (Or.inl rfl)) rfl⟩

end BuildHTMLFromJSONFiles
